import Mathlib

/-!
Verification development for the trading-suggester repository.

The definitions below are shallow embeddings of the Python sources:
machine floats are modelled by rationals, Python `round` by banker
rounding on rationals, JSON parsing by `Option`-typed inputs, and the
in-place mutation performed by the validation engine by pure record
updates.  Sources embedded here:
  - src/validation/validator.py  (validate_llm_output)
  - src/models/llm_output.py     (schema & confidence checks)
  - src/config.py                (risk configuration defaults)
  - src/features/engine.py       (_compute_bar_stats, _compute_atr)
  - src/anchoring.py             (build_anchoring_context)
-/

namespace TradingSuggester

/-- Banker rounding of a rational to the nearest integer with ties to
even, matching the Python builtin `round` on exact values. -/
def rnd (x : ℚ) : ℤ :=
  if x - ⌊x⌋ < 1/2 then ⌊x⌋
  else if 1/2 < x - ⌊x⌋ then ⌊x⌋ + 1
  else if ⌊x⌋ % 2 = 0 then ⌊x⌋ else ⌊x⌋ + 1

/-- Python `round(x, n)`: round to `n` decimal digits, ties to even. -/
def roundTo (n : ℕ) (x : ℚ) : ℚ := (rnd (x * 10 ^ n) : ℚ) / 10 ^ n

/-- Python `int(x)`: truncation toward zero. -/
def pyInt (x : ℚ) : ℤ := if 0 ≤ x then ⌊x⌋ else ⌈x⌉

/-! ## Data model of the LLM output (src/models/llm_output.py) -/

/-- One named criterion with a 0-10 score (class ConfidenceCriterion). -/
structure ConfidenceCriterion where
  criterion : String
  score : ℤ
deriving DecidableEq

/-- Entry price levels (class EntryLevels). -/
structure EntryLevels where
  trigger : ℚ
  retest_zone_low : ℚ
  retest_zone_high : ℚ
deriving DecidableEq

/-- Entry description (class Entry). -/
structure Entry where
  type : String
  trigger_conditions : List String
  entry_style : String
  levels : EntryLevels
deriving DecidableEq

/-- Stop level with rationale (class Stop). -/
structure Stop where
  level : ℚ
  why : String
deriving DecidableEq

/-- One rung of the take-profit ladder (class TakeProfit). -/
structure TakeProfit where
  level : ℚ
  pct : ℤ
deriving DecidableEq

/-- The liquidation-buffer note: either the raw text supplied by the
model, or the pair of numbers (approximate liquidation distance in
percent, stop distance in percent) from which the validator formats
its replacement string. -/
inductive LiqNote where
  | raw (text : String)
  | computed (liq_dist_pct stop_dist_pct : ℚ)
deriving DecidableEq

/-- Risk block of one setup (class Risk). -/
structure Risk where
  risk_pct_equity : ℚ
  max_loss_usd : ℚ
  recommended_leverage : ℤ
  position_notional_usd : ℚ
  margin_used_usd : ℚ
  rr_to_tp1 : ℚ
  cancel_if_not_triggered_minutes : ℤ
  time_stop_minutes : ℤ
  liquidation_buffer_note : LiqNote
deriving DecidableEq

/-- One proposed trade setup (class Setup). -/
structure Setup where
  rank : ℤ
  asset : String
  direction : String
  playbook : String
  confidence : ℤ
  confidence_breakdown : List ConfidenceCriterion
  time_horizon_hours : List ℤ
  entry : Entry
  stop : Stop
  take_profits : List TakeProfit
  risk : Risk
  invalidations : List String
  red_flags : List String
  if_not_triggered : String
deriving DecidableEq

/-- Top level LLM output (class LLMOutput). -/
structure LLMOutput where
  timestamp : String
  regime : String
  regime_note : String
  setups : List Setup
  no_trade_reason : String
deriving DecidableEq

/-- Risk configuration (src/config.py). -/
structure Config where
  equity_usd : ℚ
  max_risk_per_trade_pct : ℚ
  max_total_risk_pct : ℚ
  max_leverage : ℤ
deriving DecidableEq

/-- Defaults from src/config.py: equity 10000, 1 percent per trade,
2 percent total, maximum leverage 6. -/
def defaultConfig : Config :=
  { equity_usd := 10000, max_risk_per_trade_pct := 1
    max_total_risk_pct := 2, max_leverage := 6 }

/-! ## Schema validation (pydantic validators in llm_output.py) -/

/-- The fixed weight vector of `confidence_matches_breakdown`. -/
def weights : List ℚ := [2, 3/2, 3/2, 3/2, 1, 1/2, 1/2, 1/4, 1/4, 1]

/-- Weighted sum of the criterion scores against `weights`
(`sum(s * w for s, w in zip(raw_scores, weights))`). -/
def weightedSum (scores : List ℤ) : ℚ :=
  ((scores.zip weights).map (fun p => (p.1 : ℚ) * p.2)).sum

/-- The expected confidence: `round(...)` of the weighted sum. -/
def expectedConfidence (scores : List ℤ) : ℤ := rnd (weightedSum scores)

/-- Structured schema violations (the pydantic ValidationError cases). -/
inductive SchemaErr where
  | badSetupCount (n : ℕ)
  | badRegime (r : String)
  | badScore (rank v : ℤ)
  | badConfidence (rank v : ℤ)
  | badBreakdownLen (rank : ℤ) (n : ℕ)
  | badPlaybook (rank : ℤ) (v : String)
  | badDirection (rank : ℤ) (v : String)
  | confidenceMismatch (rank conf expected : ℤ)
deriving DecidableEq

/-- Field-validator errors of one setup: score ranges, confidence
range, breakdown length, playbook and direction membership. -/
def setupFieldErrs (s : Setup) : List SchemaErr :=
  (s.confidence_breakdown.filterMap (fun c =>
    if c.score < 0 ∨ 10 < c.score then some (SchemaErr.badScore s.rank c.score) else none))
  ++ (if s.confidence < 0 ∨ 100 < s.confidence then
        [SchemaErr.badConfidence s.rank s.confidence] else [])
  ++ (if s.confidence_breakdown.length ≠ 10 then
        [SchemaErr.badBreakdownLen s.rank s.confidence_breakdown.length] else [])
  ++ (if s.playbook ∉ ["A", "B", "C", "D", "E"] then
        [SchemaErr.badPlaybook s.rank s.playbook] else [])
  ++ (if s.direction ∉ ["long", "short", "no_trade"] then
        [SchemaErr.badDirection s.rank s.direction] else [])

/-- The after-model validator `confidence_matches_breakdown`; as in
pydantic it only runs when every field validator of the setup passed. -/
def setupMismatchErrs (s : Setup) : List SchemaErr :=
  if setupFieldErrs s = [] then
    let scores := s.confidence_breakdown.map (fun c => c.score)
    if 2 < |s.confidence - expectedConfidence scores| then
      [SchemaErr.confidenceMismatch s.rank s.confidence (expectedConfidence scores)]
    else []
  else []

/-- All schema errors of one setup. -/
def setupErrs (s : Setup) : List SchemaErr :=
  setupFieldErrs s ++ setupMismatchErrs s

/-- All schema errors of the whole output: per-setup errors plus the
exactly-3-setups and regime-membership checks of class LLMOutput. -/
def schemaErrors (o : LLMOutput) : List SchemaErr :=
  (o.setups.map setupErrs).flatten
  ++ (if o.setups.length ≠ 3 then [SchemaErr.badSetupCount o.setups.length] else [])
  ++ (if o.regime ∉ ["trend", "range", "high_vol", "low_vol", "chop"] then
        [SchemaErr.badRegime o.regime] else [])

/-! ## Risk auto-correction (validate_llm_output, validator.py) -/

/-- Structured correction notes; the Python code formats each of these
into a human readable string, the numeric payload is kept here. -/
inductive Note where
  | cappedRisk (rank : ℤ) (oldPct newPct : ℚ)
  | leverageCapped (rank maxLev : ℤ) (notional maxLoss : ℚ)
  | correctedNotional (rank : ℤ) (asset : String) (oldN newN : ℚ)
  | correctedRR (rank : ℤ) (oldRR newRR : ℚ)
  | scaledRisk (rank : ℤ) (oldPct newPct : ℚ)
deriving DecidableEq

/-- Residual (non-corrected) issues. -/
inductive Warn where
  | invalidJson
  | schemaFailed (errs : List SchemaErr)
  | rrBelowMin (rank : ℤ) (asset : String) (rr : ℚ)
deriving DecidableEq

/-- One entry of the returned issue list: either a correction note
(prefixed in the Python output) or a residual issue. -/
inductive Issue where
  | corrected (n : Note)
  | residual (w : Warn)
deriving DecidableEq

/-- Clamp of `risk_pct_equity` to the per-trade ceiling (lines 51-56 of
validator.py mutate only when the ceiling is exceeded). -/
def capRiskPct (cfg : Config) (p : ℚ) : ℚ :=
  if cfg.max_risk_per_trade_pct < p then cfg.max_risk_per_trade_pct else p

/-- The notional recomputed from first principles for risk percent `p`,
entry `e` and stop `st`: `max_loss_usd / stop_dist_pct` with
`max_loss_usd = EQUITY_USD * p / 100` and `stop_dist_pct = |e - st| / e`. -/
def sizedNotional (cfg : Config) (p e st : ℚ) : ℚ :=
  (cfg.equity_usd * p / 100) / (|e - st| / e)

/-- The raw leverage `notional / margin_budget` with
`margin_budget = EQUITY_USD * 0.5`. -/
def rawLeverage (cfg : Config) (p e st : ℚ) : ℚ :=
  sizedNotional cfg p e st / (cfg.equity_usd * (1/2))

/-- The recomputed reward:risk to TP1 (validator.py lines 84-90):
zero without a take-profit, otherwise `round(reward / risk, 2)`
guarded by `risk_dist > 0`. -/
def rrOf (e st : ℚ) : List TakeProfit → ℚ
  | [] => 0
  | tp1 :: _ => if 0 < |e - st| then roundTo 2 (|tp1.level - e| / |e - st|) else 0

/-- Per-setup body of the step-3 loop of `validate_llm_output`
(validator.py lines 46-128): risk cap, deterministic sizing override,
R:R recomputation and the R:R gate.  Returns the mutated setup, the
correction notes and the residual warnings it produced. -/
def correctSetup (cfg : Config) (s : Setup) : Setup × List Note × List Warn :=
  if s.direction = "no_trade" then (s, [], [])
  else
    let p0 := s.risk.risk_pct_equity
    let capNotes :=
      if cfg.max_risk_per_trade_pct < p0 then
        [Note.cappedRisk s.rank p0 cfg.max_risk_per_trade_pct] else []
    let p := capRiskPct cfg p0
    let s1 : Setup := { s with risk := { s.risk with risk_pct_equity := p } }
    let e := s.entry.levels.trigger
    let st := s.stop.level
    if 0 < e ∧ 0 < st ∧ e ≠ st then
      let stopDistPct := |e - st| / e
      let n0 := sizedNotional cfg p e st
      let raw := rawLeverage cfg p e st
      let lev := min (pyInt raw + 1) cfg.max_leverage
      let shrink := (cfg.max_leverage : ℚ) < raw
      let n1 := if shrink then cfg.equity_usd * (1/2) * cfg.max_leverage else n0
      let maxLoss := if shrink then n1 * stopDistPct else cfg.equity_usd * p / 100
      let levNotes :=
        if shrink then [Note.leverageCapped s.rank cfg.max_leverage n1 maxLoss] else []
      let margin := n1 / lev
      let rr : ℚ := rrOf e st s.take_profits
      let oldN := s.risk.position_notional_usd
      let nNotes :=
        if 0 < oldN ∧ 1/10 < |n1 - oldN| / oldN then
          [Note.correctedNotional s.rank s.asset oldN n1] else []
      let oldRR := s.risk.rr_to_tp1
      let rrNotes :=
        if 0 < oldRR ∧ 1/10 < |rr - oldRR| / oldRR then
          [Note.correctedRR s.rank oldRR rr] else []
      let s2 : Setup := { s1 with risk := { s1.risk with
        max_loss_usd := roundTo 2 maxLoss
        position_notional_usd := roundTo 2 n1
        recommended_leverage := lev
        margin_used_usd := roundTo 2 margin
        rr_to_tp1 := rr
        liquidation_buffer_note :=
          LiqNote.computed ((1 / (lev : ℚ)) * 100) (stopDistPct * 100) } }
      let warns :=
        if s2.risk.rr_to_tp1 < 3/2 then [Warn.rrBelowMin s.rank s.asset s2.risk.rr_to_tp1] else []
      (s2, capNotes ++ levNotes ++ nNotes ++ rrNotes, warns)
    else
      let warns :=
        if s1.risk.rr_to_tp1 < 3/2 then [Warn.rrBelowMin s.rank s.asset s1.risk.rr_to_tp1] else []
      (s1, capNotes, warns)

/-- The setups after the step-3 loop, in order. -/
def correctedSetups (cfg : Config) (l : List Setup) : List Setup :=
  l.map (fun s => (correctSetup cfg s).1)

/-- All correction notes emitted by the step-3 loop, in order. -/
def correctionNotes (cfg : Config) (l : List Setup) : List Note :=
  (l.map (fun s => (correctSetup cfg s).2.1)).flatten

/-- All residual R:R warnings emitted by the step-3 loop. -/
def rrWarns (cfg : Config) (l : List Setup) : List Warn :=
  (l.map (fun s => (correctSetup cfg s).2.2)).flatten

/-- The running total `total_risk`: the (post-cap) risk percent summed
over the non-no_trade setups (line 128 runs after the mutation). -/
def totalRisk (cfg : Config) (l : List Setup) : ℚ :=
  (l.map (fun s =>
    if s.direction = "no_trade" then 0
    else (correctSetup cfg s).1.risk.risk_pct_equity)).sum

/-- One setup under the total-risk scale-down (lines 134-141). -/
def scaleSetup (scale : ℚ) (s : Setup) : Setup × List Note :=
  if s.direction ≠ "no_trade" then
    let oldP := s.risk.risk_pct_equity
    let newP := roundTo 2 (oldP * scale)
    ({ s with risk := { s.risk with risk_pct_equity := newP } },
     [Note.scaledRisk s.rank oldP newP])
  else (s, [])

/-- The total-risk gate (lines 131-141): when the total exceeds the
ceiling, every non-no_trade setup is scaled by `ceiling / total`. -/
def applyTotalRiskScaling (cfg : Config) (l : List Setup) (total : ℚ) :
    List Setup × List Note :=
  if cfg.max_total_risk_pct < total then
    let scale := cfg.max_total_risk_pct / total
    (l.map (fun s => (scaleSetup scale s).1),
     (l.map (fun s => (scaleSetup scale s).2)).flatten)
  else (l, [])

/-- The whole `validate_llm_output` pipeline.  A `none` input models
text that failed JSON parsing; an input whose schema errors are
non-empty is rejected wholesale; otherwise the corrected output is
returned together with the ordered issue list (correction notes first,
then residual issues, as the Python code concatenates them). -/
def validateLLMOutput (cfg : Config) (parsed : Option LLMOutput) :
    Option LLMOutput × List Issue :=
  match parsed with
  | none => (none, [Issue.residual Warn.invalidJson])
  | some o =>
    let errs := schemaErrors o
    if errs ≠ [] then (none, [Issue.residual (Warn.schemaFailed errs)])
    else
      let l1 := correctedSetups cfg o.setups
      let notes := correctionNotes cfg o.setups
      let warns := rrWarns cfg o.setups
      let total := totalRisk cfg o.setups
      let scaled := applyTotalRiskScaling cfg l1 total
      (some { o with setups := scaled.1 },
       (notes ++ scaled.2).map Issue.corrected ++ warns.map Issue.residual)

/-- The correction notes contained in an issue list (the entries the
Python code prefixes with the CORRECTED marker). -/
def correctionsOf (issues : List Issue) : List Note :=
  issues.filterMap (fun i =>
    match i with
    | Issue.corrected n => some n
    | Issue.residual _ => none)

/-- Recognizer for total-risk scaling notes. -/
def isScaledNote : Note → Bool
  | Note.scaledRisk _ _ _ => true
  | _ => false

/-! ## Feature engine (src/features/engine.py) -/

/-- Per-asset slice of one snapshot, reduced to the fields
`_compute_bar_stats` reads; a `none` mid models a missing key. -/
structure AssetSnap where
  mid : Option ℚ
deriving DecidableEq

/-- One market snapshot: a mapping from asset symbol to data. -/
structure Snapshot where
  assets : List (String × AssetSnap)
deriving DecidableEq

/-- Lookup of `snap.get("assets", {}).get(symbol, {}).get("mid")`. -/
def snapMid (s : Snapshot) (symbol : String) : Option ℚ :=
  match s.assets.find? (fun p => p.1 = symbol) with
  | some p => p.2.mid
  | none => none

/-- The mid collection loop of `_compute_bar_stats` (lines 107-111):
mids are appended only when truthy, so `none` and `0` are skipped. -/
def collectMids (snaps : List Snapshot) (symbol : String) : List ℚ :=
  snaps.filterMap (fun s =>
    match snapMid s symbol with
    | some m => if m = 0 then none else some m
    | none => none)

/-- The inner closure `_ret(idx)` (lines 116-118): the lag index is
clamped to the last collected mid, and the return is rounded to 4
decimals. -/
def retAt (mids : List ℚ) (idx : ℕ) : Option ℚ :=
  let i := min idx (mids.length - 1)
  let r := mids.getD i 0
  let current := mids.getD 0 0
  if r = 0 then none
  else some (roundTo 4 ((current - r) / r * 100))

/-- The 1m/5m/15m returns of `_compute_bar_stats` (lines 113-121):
all `none` when fewer than two mids were collected, otherwise the
clamped-lag returns at offsets 1, 5 and 15. -/
def shortReturns (mids : List ℚ) : Option ℚ × Option ℚ × Option ℚ :=
  if 2 ≤ mids.length then (retAt mids 1, retAt mids 5, retAt mids 15)
  else (none, none, none)

/-- One candle with high, low and close. -/
structure Candle where
  h : ℚ
  l : ℚ
  c : ℚ
deriving DecidableEq

/-- The `_compute_atr` function (engine.py lines 150-170), including
the `candles[max(0, len(candles) - period + i - 1)]` previous-close
index of line 160. -/
def computeAtr (candles : List Candle) (period : ℕ) : Option ℚ :=
  if candles.length < 3 then none
  else
    let n := candles.length
    let window := candles.drop (n - min period n)
    let trs := window.enum.filterMap (fun q =>
      let i := q.1
      let c := q.2
      if c.h = 0 ∨ c.l = 0 then none
      else if 0 < i then
        let j : ℤ := max 0 ((n : ℤ) - (period : ℤ) + (i : ℤ) - 1)
        let prevC := (candles.getD j.toNat { h := 0, l := 0, c := 0 }).c
        if prevC ≠ 0 then
          some (max (c.h - c.l) (max |c.h - prevC| |c.l - prevC|))
        else some (c.h - c.l)
      else some (c.h - c.l))
    if trs = [] then none
    else some (roundTo 4 (trs.sum / trs.length))

/-- Following the specification text only: ATR over the trailing
`period` bars where the true range of a bar is
`max (h - l) (max |h - prevClose| |l - prevClose|)` with the close of
the immediately preceding bar of the series as `prevClose`, `h - l`
for the first bar of the window, undefined for fewer than 3 candles.
Kept beside `computeAtr` to exhibit where the code deviates. -/
def atrSpec (candles : List Candle) (period : ℕ) : Option ℚ :=
  if candles.length < 3 then none
  else
    let n := candles.length
    let start := n - min period n
    let window := candles.drop start
    let trs := window.enum.map (fun q =>
      if q.1 = 0 then q.2.h - q.2.l
      else
        let prevC := (candles.getD (start + q.1 - 1) { h := 0, l := 0, c := 0 }).c
        max (q.2.h - q.2.l) (max |q.2.h - prevC| |q.2.l - prevC|))
    some (roundTo 4 (trs.sum / trs.length))

/-! ## Anchoring context builder (src/anchoring.py) -/

/-- Python string comparison on char lists (lexicographic by code
point, shorter prefix first). -/
def charListLt : List Char → List Char → Bool
  | [], [] => false
  | [], _ :: _ => true
  | _ :: _, [] => false
  | a :: as, b :: bs => if a < b then true else if b < a then false else charListLt as bs

/-- Python `a < b` on strings. -/
def strLtB (a b : String) : Bool := charListLt a.data b.data

/-- One signal log entry, reduced to the keys the anchoring module
reads. -/
structure SignalRec where
  ts : String
  asset : String
  event : String
  level : String
  level_value : Option ℚ
  price : Option ℚ
  pct : Option ℚ
deriving DecidableEq

/-- A take-profit entry of the parsed previous analysis. -/
structure PrevTP where
  level : Option ℚ
deriving DecidableEq

/-- One setup of the parsed previous analysis; every key is optional
because the raw JSON is accessed with `.get` defaults. -/
structure PrevSetup where
  direction : Option String
  asset : Option String
  playbook : Option String
  confidence : Option ℤ
  trigger : Option ℚ
  stop : Option ℚ
  take_profits : List PrevTP
  invalidations : List String
deriving DecidableEq

/-- The parse result of the stored raw response text. -/
structure PrevParsed where
  regime : Option String
  regime_note : Option String
  setups : List PrevSetup
deriving DecidableEq

/-- The persisted previous-analysis record: its timestamp string (the
`.get("timestamp")`, `none` when absent) and the stored raw text,
modelled as `none` when `json.loads` would fail on it. -/
structure PrevRecord where
  timestamp : Option String
  raw : Option PrevParsed
deriving DecidableEq

/-- Anchor strength labels of lines 76-90. -/
inductive Strength where
  | strong
  | moderate
  | weak
deriving DecidableEq

/-- One digest line per previous setup (lines 92-117). -/
inductive SetupDigest where
  | noTrade (asset playbook : String)
  | trade (asset direction playbook : String) (confidence : ℤ)
      (trigger stop tp1 : ℚ) (invalidations : List String)
deriving DecidableEq

/-- One deduplicated signal summary line (lines 155-166). -/
inductive SummaryLine where
  | withPct (asset event : String) (pct : ℚ) (price : Option ℚ)
  | withLevel (asset event level : String) (level_value : Option ℚ) (price : Option ℚ)
  | plain (asset event : String) (price : Option ℚ)
deriving DecidableEq

/-- The produced anchoring digest, holding the data the Python code
formats into its text block. -/
structure Anchor where
  regime : String
  regime_note : String
  age_minutes : ℚ
  signals_since : ℕ
  strength : Strength
  setups_digest : List SetupDigest
  signal_summary : List SummaryLine
deriving DecidableEq

/-- The age computation of lines 42-47: the parsed timestamp gives the
elapsed minutes, an unparseable one falls back to 999. -/
def ageMinutes (parseTs : String → Option ℚ) (now : ℚ) (ts : String) : ℚ :=
  match parseTs ts with
  | some t => (now - t) / 60
  | none => 999

/-- `_count_signals_since`: entries whose ts string compares greater
than the record timestamp. -/
def signalsSinceCount (signals : List SignalRec) (prevTs : String) : ℕ :=
  (signals.filter (fun s => strLtB prevTs s.ts)).length

/-- `_get_signals_since`. -/
def signalsSince (signals : List SignalRec) (prevTs : String) : List SignalRec :=
  signals.filter (fun s => strLtB prevTs s.ts)

/-- Grouping key of `_summarize_signals`. -/
def sigKey (s : SignalRec) : String × String × String := (s.asset, s.event, s.level)

/-- Keep, for every key, only its last occurrence (Python dict
last-wins update). -/
def dedupLastWins : List SignalRec → List SignalRec
  | [] => []
  | s :: rest =>
    if rest.any (fun t => sigKey t = sigKey s) then dedupLastWins rest
    else s :: dedupLastWins rest

/-- Python tuple comparison on the grouping keys. -/
def keyLe (a b : String × String × String) : Bool :=
  if a.1 ≠ b.1 then strLtB a.1 b.1
  else if a.2.1 ≠ b.2.1 then strLtB a.2.1 b.2.1
  else strLtB a.2.2 b.2.2 || (a.2.2 = b.2.2)

/-- Insertion sort by key (the `sorted(seen.items())` of line 156;
keys are unique after deduplication). -/
def insertByKey (x : SignalRec) : List SignalRec → List SignalRec
  | [] => [x]
  | y :: t => if keyLe (sigKey x) (sigKey y) then x :: y :: t else y :: insertByKey x t

/-- Sort the deduplicated signals by key. -/
def sortByKey (l : List SignalRec) : List SignalRec :=
  l.foldr insertByKey []

/-- `_summarize_signals`: deduplicate by (asset, event, level) keeping
the latest, sort by key, and format each survivor. -/
def summarizeSignals (signals : List SignalRec) : List SummaryLine :=
  (sortByKey (dedupLastWins signals)).map (fun s =>
    match s.pct with
    | some p => SummaryLine.withPct s.asset s.event p s.price
    | none =>
      if s.level ≠ "" then SummaryLine.withLevel s.asset s.event s.level s.level_value s.price
      else SummaryLine.plain s.asset s.event s.price)

/-- Digest of one previous setup (lines 92-117). -/
def digestSetup (s : PrevSetup) : SetupDigest :=
  let direction := s.direction.getD "?"
  let asset := s.asset.getD "?"
  let playbook := s.playbook.getD "?"
  if direction = "no_trade" then SetupDigest.noTrade asset playbook
  else
    let tp1 :=
      match s.take_profits with
      | [] => 0
      | t :: _ => t.level.getD 0
    SetupDigest.trade asset direction playbook (s.confidence.getD 0)
      (s.trigger.getD 0) (s.stop.getD 0) tp1 (s.invalidations.take 2)

/-- The `build_anchoring_context` state machine (anchoring.py lines
22-129).  `parseTs` stands for `datetime.fromisoformat` (returning the
epoch seconds, `none` on a parse failure) and `now` for
`datetime.now(timezone.utc)` in epoch seconds, both passed explicitly. -/
def buildAnchoringContext (parseTs : String → Option ℚ) (now : ℚ)
    (prev : Option PrevRecord) (signals : List SignalRec) : Option Anchor :=
  match prev with
  | none => none
  | some rec =>
    match rec.timestamp with
    | none => none
    | some ts =>
      if ts = "" then none
      else
        let age := ageMinutes parseTs now ts
        let since := signalsSinceCount signals ts
        if 90 < age ∧ since = 0 then none
        else
          match rec.raw with
          | none => none
          | some parsed =>
            let strength :=
              if 45 < age ∧ since = 0 then Strength.weak
              else if 45 < age ∧ 0 < since then Strength.moderate
              else Strength.strong
            some
              { regime := parsed.regime.getD "unknown"
                regime_note := parsed.regime_note.getD ""
                age_minutes := age
                signals_since := since
                strength := strength
                setups_digest := parsed.setups.map digestSetup
                signal_summary :=
                  if 0 < since then summarizeSignals (signalsSince signals ts) else [] }

/-! ## Concrete instances used to exercise the pipeline -/

/-- Ten equal scores of 5, whose weighted sum is exactly 50. -/
def fives : List ℤ := List.replicate 10 5

/-- Breakdown list from a score vector. -/
def mkBreakdown (scores : List ℤ) : List ConfidenceCriterion :=
  scores.map (fun v => { criterion := "criterion", score := v })

/-- Risk block with the given percent, notional and R:R; the other
numeric fields are placeholders the validator overwrites. -/
def mkRisk (p notional rr : ℚ) : Risk :=
  { risk_pct_equity := p, max_loss_usd := 0, recommended_leverage := 1
    position_notional_usd := notional, margin_used_usd := 0, rr_to_tp1 := rr
    cancel_if_not_triggered_minutes := 60, time_stop_minutes := 120
    liquidation_buffer_note := LiqNote.raw "tbd" }

/-- Entry block triggering at `e`. -/
def mkEntry (e : ℚ) : Entry :=
  { type := "trigger", trigger_conditions := ["break and hold"]
    entry_style := "limit", levels := { trigger := e, retest_zone_low := e, retest_zone_high := e } }

/-- A fully populated setup. -/
def mkSetup (rank : ℤ) (asset direction : String) (conf : ℤ) (scores : List ℤ)
    (e st : ℚ) (tps : List TakeProfit) (p notional rr : ℚ) : Setup :=
  { rank := rank, asset := asset, direction := direction, playbook := "A"
    confidence := conf, confidence_breakdown := mkBreakdown scores
    time_horizon_hours := [1, 4], entry := mkEntry e
    stop := { level := st, why := "below structure" }
    take_profits := tps, risk := mkRisk p notional rr
    invalidations := ["loses level"], red_flags := []
    if_not_triggered := "cancel" }

/-- A schema-valid no_trade setup. -/
def noTradeSetup (rank : ℤ) (asset : String) : Setup :=
  mkSetup rank asset "no_trade" 50 fives 0 0 [] 0 0 0

/-- Default setup used only as the fallback of list lookups. -/
def dfltSetup : Setup := noTradeSetup 0 "none"

/-- The configuration of the leverage-ceiling example with the maximum
leverage lowered to 4. -/
def config4 : Config := { defaultConfig with max_leverage := 4 }

/-- The long BTC setup of the leverage-ceiling example: entry 66750,
stop 66500, 1 percent risk. -/
def exSetupA : Setup :=
  mkSetup 1 "BTC" "long" 50 fives 66750 66500 [{ level := 67500, pct := 100 }] 1 26700 3

/-- The leverage-ceiling example of the specification: one long BTC
setup with entry 66750, stop 66500 and 1 percent risk, plus two
no_trade setups. -/
def exInp1 : LLMOutput :=
  { timestamp := "2025-01-01T00:00:00", regime := "trend", regime_note := "up"
    setups := [exSetupA, noTradeSetup 2 "ETH", noTradeSetup 3 "SOL"]
    no_trade_reason := "" }

/-- The corrected output of `exInp1` under the default configuration. -/
def exOut1 : LLMOutput := ((validateLLMOutput defaultConfig (some exInp1)).1).getD exInp1

/-- The corrected output of `exInp1` with maximum leverage 4. -/
def exOut1c4 : LLMOutput := ((validateLLMOutput config4 (some exInp1)).1).getD exInp1

/-- The total-risk scaling example: three long setups risking 1
percent each against the 2 percent total ceiling. -/
def exInp3 : LLMOutput :=
  { timestamp := "2025-01-01T00:00:00", regime := "trend", regime_note := "up"
    setups := [mkSetup 1 "BTC" "long" 50 fives 100 99 [{ level := 102, pct := 100 }] 1 10000 2,
               mkSetup 2 "ETH" "long" 50 fives 100 99 [{ level := 102, pct := 100 }] 1 10000 2,
               mkSetup 3 "SOL" "long" 50 fives 100 99 [{ level := 102, pct := 100 }] 1 10000 2]
    no_trade_reason := "" }

/-- The corrected output of `exInp3` under the default configuration. -/
def exOut3 : LLMOutput := ((validateLLMOutput defaultConfig (some exInp3)).1).getD exInp3

/-- A setup whose declared confidence of 53 differs from the raw
weighted sum 50.75 by 2.25 (beyond 2) but from the rounded weighted
sum 51 by only 2. -/
def borderSetup : Setup :=
  mkSetup 1 "BTC" "long" 53 [5, 5, 5, 5, 5, 5, 5, 8, 5, 5] 100 99
    [{ level := 102, pct := 100 }] 1 10000 2

/-- Output containing `borderSetup`. -/
def exC4in : LLMOutput :=
  { timestamp := "2025-01-01T00:00:00", regime := "range", regime_note := "flat"
    setups := [borderSetup, noTradeSetup 2 "ETH", noTradeSetup 3 "SOL"]
    no_trade_reason := "" }

/-- A setup whose declared confidence of 80 is far from its weighted
sum of 50. -/
def exC4bad : LLMOutput :=
  { timestamp := "2025-01-01T00:00:00", regime := "range", regime_note := "flat"
    setups := [mkSetup 1 "BTC" "long" 80 fives 100 99 [{ level := 102, pct := 100 }] 1 10000 2,
               noTradeSetup 2 "ETH", noTradeSetup 3 "SOL"]
    no_trade_reason := "" }

/-- An otherwise valid output whose only take-profit ladder sums to
50, not 100. -/
def exC8 : LLMOutput :=
  { timestamp := "2025-01-01T00:00:00", regime := "trend", regime_note := "up"
    setups := [mkSetup 1 "BTC" "long" 50 fives 100 99 [{ level := 102, pct := 50 }] 1 10000 2,
               noTradeSetup 2 "ETH", noTradeSetup 3 "SOL"]
    no_trade_reason := "" }

/-- Two snapshots (newest first) holding BTC mids 100 and 99. -/
def exSnaps : List Snapshot :=
  [{ assets := [("BTC", { mid := some 100 })] },
   { assets := [("BTC", { mid := some 99 })] }]

/-- Four candles shorter than the default ATR period, with closes
100, 5, 9, 9 chosen so the previous-close indexing is visible. -/
def exCandles : List Candle :=
  [{ h := 10, l := 9, c := 100 }, { h := 10, l := 9, c := 5 },
   { h := 10, l := 9, c := 9 }, { h := 10, l := 9, c := 9 }]

/-- Timestamp parser for the anchoring examples: the single known ISO
string maps to epoch second 0, everything else fails to parse. -/
def exParse : String → Option ℚ :=
  fun s => if s = "2025-01-01T00:00:00" then some 0 else none

/-- Now = 6000 epoch seconds: 100 minutes after the record. -/
def exNow : ℚ := 6000

/-- A parseable stored raw text. -/
def exPrevParsed : PrevParsed :=
  { regime := some "trend", regime_note := some "up", setups := [] }

/-- A previous record stamped at epoch 0 with parseable raw text. -/
def exRec : PrevRecord :=
  { timestamp := some "2025-01-01T00:00:00", raw := some exPrevParsed }

/-- One signal an hour after the record. -/
def exSig : SignalRec :=
  { ts := "2025-01-01T01:00:00", asset := "BTC", event := "level_break"
    level := "R1", level_value := some 100, price := some 101, pct := none }

/-- A previous record whose timestamp string is present but not an ISO
datetime. -/
def exRec10 : PrevRecord :=
  { timestamp := some "not-a-date", raw := some exPrevParsed }

/-- A signal whose ts string compares greater than "not-a-date". -/
def exSig10 : SignalRec :=
  { ts := "zzz", asset := "BTC", event := "new_day_high"
    level := "", level_value := none, price := some 101, pct := some (3/2) }

/-! ## Specification predicates referenced by the claim theorems -/

/-- Equality of the qualitative text fields listed by the frame claim:
entry trigger conditions, stop rationale, invalidations, red flags and
the criterion names of the confidence breakdown. -/
def textFieldsEq (a b : Setup) : Prop :=
  a.entry.trigger_conditions = b.entry.trigger_conditions ∧
  a.stop.why = b.stop.why ∧
  a.invalidations = b.invalidations ∧
  a.red_flags = b.red_flags ∧
  a.confidence_breakdown.map (fun c => c.criterion) =
    b.confidence_breakdown.map (fun c => c.criterion)

/-- The whole-output frame property: regime, regime note and no-trade
reason are unchanged and every positionally corresponding setup agrees
on all text fields. -/
def textPreserved (inp out : LLMOutput) : Prop :=
  out.regime = inp.regime ∧ out.regime_note = inp.regime_note ∧
  out.no_trade_reason = inp.no_trade_reason ∧
  ∀ i : ℕ, ∀ s₀ sOut, inp.setups[i]? = some s₀ → out.setups[i]? = some sOut →
    textFieldsEq sOut s₀

/-- The sizing contract of the claim: leverage is
`min (int(raw) + 1) max_leverage` and never exceeds the maximum; when
the raw leverage fits under the cap the stored notional and max loss
are the first-principles values, and when it exceeds the cap the
notional is shrunk to `margin_budget * max_leverage` with the max loss
recomputed from it; margin is notional over leverage (all stored
rounded to cents). -/
def sizingSpec (cfg : Config) (p e st : ℚ) (r : Risk) : Prop :=
  r.recommended_leverage = min (pyInt (rawLeverage cfg p e st) + 1) cfg.max_leverage ∧
  r.recommended_leverage ≤ cfg.max_leverage ∧
  (rawLeverage cfg p e st ≤ (cfg.max_leverage : ℚ) →
    r.position_notional_usd = roundTo 2 (sizedNotional cfg p e st) ∧
    r.max_loss_usd = roundTo 2 (cfg.equity_usd * p / 100) ∧
    r.margin_used_usd = roundTo 2 (sizedNotional cfg p e st /
      ((min (pyInt (rawLeverage cfg p e st) + 1) cfg.max_leverage : ℤ) : ℚ))) ∧
  ((cfg.max_leverage : ℚ) < rawLeverage cfg p e st →
    r.position_notional_usd = roundTo 2 (cfg.equity_usd * (1/2) * cfg.max_leverage) ∧
    r.max_loss_usd = roundTo 2 (cfg.equity_usd * (1/2) * cfg.max_leverage * (|e - st| / e)) ∧
    r.margin_used_usd = roundTo 2 (cfg.equity_usd * (1/2) * cfg.max_leverage /
      ((min (pyInt (rawLeverage cfg p e st) + 1) cfg.max_leverage : ℤ) : ℚ)))

/-- The total-risk scaling contract: positionally, no_trade setups are
exactly the corrected ones, and every other setup keeps its sized
notional, leverage, max loss and margin while its risk percent becomes
the corrected percent times `ceiling / total`, rounded to 2 decimals. -/
def scaledFieldsSpec (cfg : Config) (inp out : LLMOutput) : Prop :=
  ∀ i : ℕ, ∀ s₀ sOut, inp.setups[i]? = some s₀ → out.setups[i]? = some sOut →
    (s₀.direction = "no_trade" → sOut = (correctSetup cfg s₀).1) ∧
    (s₀.direction ≠ "no_trade" →
      sOut.risk.risk_pct_equity =
        roundTo 2 ((correctSetup cfg s₀).1.risk.risk_pct_equity *
          (cfg.max_total_risk_pct / totalRisk cfg inp.setups)) ∧
      sOut.risk.position_notional_usd = (correctSetup cfg s₀).1.risk.position_notional_usd ∧
      sOut.risk.recommended_leverage = (correctSetup cfg s₀).1.risk.recommended_leverage ∧
      sOut.risk.max_loss_usd = (correctSetup cfg s₀).1.risk.max_loss_usd ∧
      sOut.risk.margin_used_usd = (correctSetup cfg s₀).1.risk.margin_used_usd)

/-- The return formula with the clamped lag index of `_ret`. -/
def retWithClamp (mids : List ℚ) (k : ℕ) : ℚ :=
  (mids.getD 0 0 - mids.getD (min k (mids.length - 1)) 0) /
    mids.getD (min k (mids.length - 1)) 0 * 100

/-- Replace the percent of one take-profit rung. -/
def mapTpPct (f : ℤ → ℤ) (t : TakeProfit) : TakeProfit := { t with pct := f t.pct }

/-- Replace every take-profit percent of a setup. -/
def mapSetupTpPcts (f : ℤ → ℤ) (s : Setup) : Setup :=
  { s with take_profits := s.take_profits.map (mapTpPct f) }

/-- Replace every take-profit percent of the whole output. -/
def mapOutputTpPcts (f : ℤ → ℤ) (o : LLMOutput) : LLMOutput :=
  { o with setups := o.setups.map (mapSetupTpPcts f) }

/-! ## Helper lemmas -/

theorem abs_rnd_sub (x : ℚ) : |(rnd x : ℚ) - x| ≤ 1/2 := by
  have h0 : (⌊x⌋ : ℚ) ≤ x := Int.floor_le x
  have h1 : x < ⌊x⌋ + 1 := Int.lt_floor_add_one x
  unfold rnd
  split_ifs <;> rw [abs_le] <;> constructor <;> push_cast <;> linarith

theorem abs_roundTo_two_sub (x : ℚ) : |roundTo 2 x - x| ≤ 1/200 := by
  have h := abs_rnd_sub (x * 10 ^ 2)
  unfold roundTo
  have e : (rnd (x * 10 ^ 2) : ℚ) / 10 ^ 2 - x = ((rnd (x * 10 ^ 2) : ℚ) - x * 10 ^ 2) / 10 ^ 2 := by
    ring
  rw [e, abs_div]
  rw [show |(10 : ℚ) ^ 2| = 100 by norm_num]
  rw [div_le_iff₀ (by norm_num : (0:ℚ) < 100)]
  linarith

theorem capRiskPct_le (cfg : Config) (p : ℚ) :
    capRiskPct cfg p ≤ cfg.max_risk_per_trade_pct := by
  unfold capRiskPct
  split_ifs with h
  · exact le_refl _
  · exact le_of_not_lt h

theorem capRiskPct_idem (cfg : Config) (p : ℚ) :
    capRiskPct cfg (capRiskPct cfg p) = capRiskPct cfg p := by
  unfold capRiskPct
  split_ifs <;> first | rfl | linarith

/-- The correction loop only rewrites the risk block of a setup. -/
theorem correctSetup_shape (cfg : Config) (s : Setup) :
    ∃ r, (correctSetup cfg s).1 = { s with risk := r } := by
  unfold correctSetup
  split_ifs <;> dsimp only <;> first
    | exact ⟨_, rfl⟩
    | (split_ifs <;> exact ⟨_, rfl⟩)

/-- The scale-down only rewrites the risk block of a setup. -/
theorem scaleSetup_shape (k : ℚ) (s : Setup) :
    ∃ r, (scaleSetup k s).1 = { s with risk := r } := by
  unfold scaleSetup
  split_ifs <;> dsimp only <;> exact ⟨_, rfl⟩

theorem setupErrs_withRisk (s : Setup) (r : Risk) :
    setupErrs { s with risk := r } = setupErrs s := rfl

theorem setupErrs_correctSetup (cfg : Config) (s : Setup) :
    setupErrs ((correctSetup cfg s).1) = setupErrs s := by
  obtain ⟨r, hr⟩ := correctSetup_shape cfg s
  rw [hr]
  exact setupErrs_withRisk s r

/-- The schema checks never read the risk blocks, so re-validating a
corrected output sees the same errors. -/
theorem schemaErrors_correctedSetups (cfg : Config) (o : LLMOutput) :
    schemaErrors { o with setups := correctedSetups cfg o.setups } = schemaErrors o := by
  unfold schemaErrors correctedSetups
  simp only [List.map_map, List.length_map]
  have hmap : o.setups.map (setupErrs ∘ fun s => (correctSetup cfg s).1) = o.setups.map setupErrs :=
    List.map_congr_left (fun s _ => setupErrs_correctSetup cfg s)
  rw [hmap]

/-- Inversion of an accepted run: the input passed the schema check
and the output is the input with its setups corrected and, exactly
when the total risk exceeded the ceiling, scaled. -/
theorem validate_inversion (cfg : Config) (inp out : LLMOutput)
    (hrun : (validateLLMOutput cfg (some inp)).1 = some out) :
    schemaErrors inp = [] ∧
    out.timestamp = inp.timestamp ∧ out.regime = inp.regime ∧
    out.regime_note = inp.regime_note ∧ out.no_trade_reason = inp.no_trade_reason ∧
    ((totalRisk cfg inp.setups ≤ cfg.max_total_risk_pct ∧
        out.setups = correctedSetups cfg inp.setups) ∨
     (cfg.max_total_risk_pct < totalRisk cfg inp.setups ∧
        out.setups = (correctedSetups cfg inp.setups).map
          (fun s => (scaleSetup (cfg.max_total_risk_pct / totalRisk cfg inp.setups) s).1))) := by
  unfold validateLLMOutput at hrun
  dsimp only at hrun
  by_cases h : schemaErrors inp = []
  · rw [if_neg (not_not_intro h)] at hrun
    dsimp only at hrun
    rw [Option.some.injEq] at hrun
    subst hrun
    refine ⟨h, rfl, rfl, rfl, rfl, ?_⟩
    by_cases ht : cfg.max_total_risk_pct < totalRisk cfg inp.setups
    · right
      refine ⟨ht, ?_⟩
      unfold applyTotalRiskScaling
      rw [if_pos ht]
    · left
      refine ⟨le_of_not_lt ht, ?_⟩
      unfold applyTotalRiskScaling
      rw [if_neg ht]
  · rw [if_pos h] at hrun
    simp at hrun

/-- Every collected mid is nonzero: the collection loop skips falsy
values. -/
theorem collectMids_ne_zero (snaps : List Snapshot) (symbol : String) :
    ∀ m ∈ collectMids snaps symbol, m ≠ 0 := by
  intro m hm
  unfold collectMids at hm
  rw [List.mem_filterMap] at hm
  obtain ⟨s, _, hs⟩ := hm
  rcases hmid : snapMid s symbol with _ | v
  · rw [hmid] at hs
    exact absurd hs (by simp)
  · rw [hmid] at hs
    dsimp only at hs
    by_cases hv : v = 0
    · rw [if_pos hv] at hs
      exact absurd hs (by simp)
    · rw [if_neg hv] at hs
      rw [Option.some.injEq] at hs
      rw [← hs]
      exact hv

/-- The scale-down never touches leverage, notional, max loss or
margin. -/
theorem scaleSetup_risk_preserved (k : ℚ) (s : Setup) :
    (scaleSetup k s).1.risk.recommended_leverage = s.risk.recommended_leverage ∧
    (scaleSetup k s).1.risk.position_notional_usd = s.risk.position_notional_usd ∧
    (scaleSetup k s).1.risk.max_loss_usd = s.risk.max_loss_usd ∧
    (scaleSetup k s).1.risk.margin_used_usd = s.risk.margin_used_usd := by
  unfold scaleSetup
  split_ifs <;> dsimp only <;> exact ⟨rfl, rfl, rfl, rfl⟩

/-- The sizing contract only reads the four preserved fields. -/
theorem sizingSpec_of_fields_eq (cfg : Config) (p e st : ℚ) (r r' : Risk)
    (hl : r'.recommended_leverage = r.recommended_leverage)
    (hn : r'.position_notional_usd = r.position_notional_usd)
    (hm : r'.max_loss_usd = r.max_loss_usd)
    (hg : r'.margin_used_usd = r.margin_used_usd)
    (h : sizingSpec cfg p e st r) : sizingSpec cfg p e st r' := by
  unfold sizingSpec at h ⊢
  rw [hl, hn, hm, hg]
  exact h

/-- The sized branch of the correction loop meets the sizing contract. -/
theorem correctSetup_sized (cfg : Config) (s : Setup)
    (hd : s.direction ≠ "no_trade")
    (hv : 0 < s.entry.levels.trigger ∧ 0 < s.stop.level ∧
          s.entry.levels.trigger ≠ s.stop.level) :
    sizingSpec cfg (capRiskPct cfg s.risk.risk_pct_equity)
      s.entry.levels.trigger s.stop.level ((correctSetup cfg s).1.risk) := by
  unfold correctSetup
  rw [if_neg hd]
  dsimp only
  rw [if_pos hv]
  dsimp only
  unfold sizingSpec
  refine ⟨rfl, min_le_right _ _, ?_, ?_⟩
  · intro hfit
    have hns : ¬ ((cfg.max_leverage : ℚ) <
        rawLeverage cfg (capRiskPct cfg s.risk.risk_pct_equity)
          s.entry.levels.trigger s.stop.level) := not_lt.mpr hfit
    simp only [if_neg hns]
    exact ⟨trivial, trivial, trivial⟩
  · intro hover
    simp only [if_pos hover]
    exact ⟨trivial, trivial, trivial⟩

theorem correctSetup_direction (cfg : Config) (s : Setup) :
    (correctSetup cfg s).1.direction = s.direction := by
  obtain ⟨r, hr⟩ := correctSetup_shape cfg s
  rw [hr]

theorem correctionsOf_append (a b : List Issue) :
    correctionsOf (a ++ b) = correctionsOf a ++ correctionsOf b :=
  List.filterMap_append a b _

theorem correctionsOf_map_corrected (ns : List Note) :
    correctionsOf (ns.map Issue.corrected) = ns := by
  unfold correctionsOf
  rw [List.filterMap_map]
  exact List.filterMap_some ns

theorem correctionsOf_map_residual (ws : List Warn) :
    correctionsOf (ws.map Issue.residual) = [] := by
  unfold correctionsOf
  rw [List.filterMap_map]
  induction ws with
  | nil => rfl
  | cons w t ih => rw [List.filterMap_cons]; exact ih

/-- On an accepted input the corrections in the issue list are exactly
the loop notes followed by the scaling notes. -/
theorem correctionsOf_validate (cfg : Config) (o : LLMOutput)
    (h : schemaErrors o = []) :
    correctionsOf (validateLLMOutput cfg (some o)).2 =
      correctionNotes cfg o.setups ++
      (applyTotalRiskScaling cfg (correctedSetups cfg o.setups) (totalRisk cfg o.setups)).2 := by
  unfold validateLLMOutput
  dsimp only
  rw [if_neg (not_not_intro h)]
  dsimp only
  rw [correctionsOf_append, correctionsOf_map_corrected, correctionsOf_map_residual,
    List.append_nil]

/-- The per-setup correction loop never emits a scaling note. -/
theorem correctSetup_notes_not_scaled (cfg : Config) (s : Setup) :
    ((correctSetup cfg s).2.1).countP isScaledNote = 0 := by
  unfold correctSetup
  split_ifs <;> dsimp only <;> first
    | rfl
    | (split_ifs <;> simp [isScaledNote])

theorem correctionNotes_not_scaled (cfg : Config) (l : List Setup) :
    (correctionNotes cfg l).countP isScaledNote = 0 := by
  unfold correctionNotes
  induction l with
  | nil => rfl
  | cons s t ih =>
    rw [List.map_cons, List.flatten_cons, List.countP_append, ih,
      correctSetup_notes_not_scaled]

/-- The scale-down emits exactly one scaling note per non-no_trade
setup. -/
theorem scaleNotes_scaled_count (k : ℚ) (l : List Setup) :
    ((l.map (fun s => (scaleSetup k s).2)).flatten).countP isScaledNote =
      l.countP (fun s => decide (s.direction ≠ "no_trade")) := by
  induction l with
  | nil => rfl
  | cons s t ih =>
    rw [List.map_cons, List.flatten_cons, List.countP_append, ih, List.countP_cons]
    unfold scaleSetup
    by_cases h : s.direction ≠ "no_trade"
    · rw [if_pos h]
      simp only [List.countP_cons, List.countP_nil, isScaledNote, h]
      simp
      rw [if_neg h]
      omega
    · rw [if_neg h]
      simp only [List.countP_nil, h]
      simp [not_not.mp h]

/-- Directions survive the correction loop, so the non-no_trade counts
agree. -/
theorem countP_direction_corrected (cfg : Config) (l : List Setup) :
    (correctedSetups cfg l).countP (fun s => decide (s.direction ≠ "no_trade")) =
      l.countP (fun s => decide (s.direction ≠ "no_trade")) := by
  unfold correctedSetups
  rw [List.countP_map]
  apply List.countP_congr
  intro x _
  simp [Function.comp, correctSetup_direction]

/-- The corrected risk percent: untouched for no_trade setups, capped
otherwise. -/
theorem correctSetup_pct (cfg : Config) (s : Setup) :
    (correctSetup cfg s).1.risk.risk_pct_equity =
      if s.direction = "no_trade" then s.risk.risk_pct_equity
      else capRiskPct cfg s.risk.risk_pct_equity := by
  unfold correctSetup
  by_cases h : s.direction = "no_trade"
  · rw [if_pos h, if_pos h]
  · rw [if_neg h, if_neg h]
    dsimp only
    split_ifs <;> rfl

/-- Re-running the correction loop leaves the post-cap totals alone. -/
theorem totalRisk_corrected (cfg : Config) (l : List Setup) :
    totalRisk cfg (correctedSetups cfg l) = totalRisk cfg l := by
  unfold totalRisk correctedSetups
  rw [List.map_map]
  apply congrArg List.sum
  apply List.map_congr_left
  intro s _
  dsimp only [Function.comp]
  rw [correctSetup_direction cfg s]
  by_cases h : s.direction = "no_trade"
  · rw [if_pos h, if_pos h]
  · rw [if_neg h, if_neg h, correctSetup_pct cfg ((correctSetup cfg s).1),
      correctSetup_direction cfg s, if_neg h, correctSetup_pct cfg s, if_neg h,
      capRiskPct_idem]

/-- Schema errors only depend on the setups and the regime. -/
theorem schemaErrors_congr (a b : LLMOutput) (h1 : a.setups = b.setups)
    (h2 : a.regime = b.regime) : schemaErrors a = schemaErrors b := by
  unfold schemaErrors
  rw [h1, h2]

theorem correctionNotes_nil_of (cfg : Config) (l : List Setup)
    (h : ∀ s ∈ l, (correctSetup cfg s).2.1 = []) :
    correctionNotes cfg l = [] := by
  unfold correctionNotes
  rw [List.flatten_eq_nil_iff]
  intro x hx
  rw [List.mem_map] at hx
  obtain ⟨s, hs, hsx⟩ := hx
  rw [← hsx]
  exact h s hs

/-- The recomputed R:R stored by the sized branch. -/
theorem correctSetup_rr (cfg : Config) (s : Setup)
    (hd : ¬ s.direction = "no_trade")
    (hv : 0 < s.entry.levels.trigger ∧ 0 < s.stop.level ∧
          s.entry.levels.trigger ≠ s.stop.level) :
    (correctSetup cfg s).1.risk.rr_to_tp1 =
      rrOf s.entry.levels.trigger s.stop.level s.take_profits := by
  unfold correctSetup
  rw [if_neg hd]
  dsimp only
  rw [if_pos hv]

/-- Applying the per-setup correction to an already corrected setup
produces no notes, provided the first pass stayed under the leverage
cap and its recomputed notional was at least one dollar. -/
theorem correctSetup_twice_no_notes (cfg : Config) (s : Setup)
    (hyp : s.direction ≠ "no_trade" →
      (0 < s.entry.levels.trigger ∧ 0 < s.stop.level ∧
        s.entry.levels.trigger ≠ s.stop.level) →
      rawLeverage cfg (capRiskPct cfg s.risk.risk_pct_equity)
          s.entry.levels.trigger s.stop.level ≤ (cfg.max_leverage : ℚ) ∧
      1 ≤ sizedNotional cfg (capRiskPct cfg s.risk.risk_pct_equity)
          s.entry.levels.trigger s.stop.level) :
    (correctSetup cfg ((correctSetup cfg s).1)).2.1 = [] := by
  by_cases hd : s.direction = "no_trade"
  · have h1 : (correctSetup cfg s).1 = s := by
      unfold correctSetup
      rw [if_pos hd]
    rw [h1]
    unfold correctSetup
    rw [if_pos hd]
  · have hXdir := correctSetup_direction cfg s
    have hXp : (correctSetup cfg s).1.risk.risk_pct_equity =
        capRiskPct cfg s.risk.risk_pct_equity := by
      rw [correctSetup_pct, if_neg hd]
    have hcap : ¬ (cfg.max_risk_per_trade_pct <
        capRiskPct cfg s.risk.risk_pct_equity) :=
      not_lt.mpr (capRiskPct_le cfg s.risk.risk_pct_equity)
    obtain ⟨r0, hr0⟩ := correctSetup_shape cfg s
    have hXe : (correctSetup cfg s).1.entry = s.entry := by rw [hr0]
    have hXst : (correctSetup cfg s).1.stop = s.stop := by rw [hr0]
    have hXtp : (correctSetup cfg s).1.take_profits = s.take_profits := by rw [hr0]
    by_cases hv : 0 < s.entry.levels.trigger ∧ 0 < s.stop.level ∧
        s.entry.levels.trigger ≠ s.stop.level
    · obtain ⟨hraw, hN⟩ := hyp hd hv
      have hns : ¬ ((cfg.max_leverage : ℚ) <
          rawLeverage cfg (capRiskPct cfg s.risk.risk_pct_equity)
            s.entry.levels.trigger s.stop.level) := not_lt.mpr hraw
      have hXn : (correctSetup cfg s).1.risk.position_notional_usd =
          roundTo 2 (sizedNotional cfg (capRiskPct cfg s.risk.risk_pct_equity)
            s.entry.levels.trigger s.stop.level) :=
        ((correctSetup_sized cfg s hd hv).2.2.1 hraw).1
      have hXrr := correctSetup_rr cfg s hd hv
      have hb := abs_roundTo_two_sub (sizedNotional cfg
        (capRiskPct cfg s.risk.risk_pct_equity) s.entry.levels.trigger s.stop.level)
      have hol : (199 : ℚ)/200 ≤ roundTo 2 (sizedNotional cfg
          (capRiskPct cfg s.risk.risk_pct_equity)
          s.entry.levels.trigger s.stop.level) := by
        have := abs_le.mp hb
        linarith
      have hnote : ¬ (0 < roundTo 2 (sizedNotional cfg
            (capRiskPct cfg s.risk.risk_pct_equity)
            s.entry.levels.trigger s.stop.level) ∧
          1/10 < |sizedNotional cfg (capRiskPct cfg s.risk.risk_pct_equity)
              s.entry.levels.trigger s.stop.level -
            roundTo 2 (sizedNotional cfg (capRiskPct cfg s.risk.risk_pct_equity)
              s.entry.levels.trigger s.stop.level)| /
            roundTo 2 (sizedNotional cfg (capRiskPct cfg s.risk.risk_pct_equity)
              s.entry.levels.trigger s.stop.level)) := by
        rintro ⟨hpos, hgt⟩
        rw [lt_div_iff₀ hpos] at hgt
        have habs : |sizedNotional cfg (capRiskPct cfg s.risk.risk_pct_equity)
            s.entry.levels.trigger s.stop.level -
            roundTo 2 (sizedNotional cfg (capRiskPct cfg s.risk.risk_pct_equity)
              s.entry.levels.trigger s.stop.level)| ≤ 1/200 := by
          rw [abs_sub_comm]
          exact hb
        linarith
      have hrrno : ¬ (0 < rrOf s.entry.levels.trigger s.stop.level s.take_profits ∧
          1/10 < |rrOf s.entry.levels.trigger s.stop.level s.take_profits -
              rrOf s.entry.levels.trigger s.stop.level s.take_profits| /
            rrOf s.entry.levels.trigger s.stop.level s.take_profits) := by
        rintro ⟨_, hgt⟩
        rw [sub_self, abs_zero, zero_div] at hgt
        exact absurd hgt (by norm_num)
      generalize hGX : (correctSetup cfg s).1 = X at hXdir hXp hXe hXst hXtp hXn hXrr
      unfold correctSetup
      rw [hXdir, if_neg hd]
      dsimp only
      rw [hXe, hXst, if_pos hv]
      dsimp only
      rw [hXp, capRiskPct_idem, if_neg hcap]
      simp only [if_neg hns]
      rw [hXn, hXtp, hXrr]
      rw [if_neg hnote, if_neg hrrno]
      rfl
    · generalize hGX : (correctSetup cfg s).1 = X at hXdir hXp hXe hXst hXtp
      unfold correctSetup
      rw [hXdir, if_neg hd]
      dsimp only
      rw [hXe, hXst, if_neg hv]
      dsimp only
      rw [hXp, if_neg hcap]

section DecideSupport

attribute [local semireducible] Rat.add Rat.mul Rat.inv Rat.sub Rat.ofScientific

/-- C3, counterexample: the corrected output of `exInp3` (three
schema-valid long setups risking 1 percent each, accepted on the first
run) is not a fixed point — running `validate_llm_output` again on it
emits further correction notes (re-derived notionals now differ by a
third, and the scaled 0.67+0.67+0.67 = 2.01 total re-triggers the
total-risk scaling). -/
theorem c3_counterexample :
    (validateLLMOutput defaultConfig (some exInp3)).1 = some exOut3 ∧
    correctionsOf (validateLLMOutput defaultConfig (some exOut3)).2 ≠ [] := by decide

/-- C4, counterexample: `borderSetup` declares confidence 53 while its
weighted criterion sum is 50.75, a deviation of 2.25 which exceeds the
tolerance of 2, yet the output holding it is accepted — the code
compares against the rounded weighted sum 51. -/
theorem c4_counterexample :
    2 < |(borderSetup.confidence : ℚ) -
          weightedSum (borderSetup.confidence_breakdown.map (fun c => c.score))| ∧
    borderSetup ∈ exC4in.setups ∧
    (validateLLMOutput defaultConfig (some exC4in)).1.isSome = true := by decide

/-- C5, counterexample: with only two collected mids (fewer than the
16 points a 15-step lag needs) the 15m return is not absent; the lag
index is clamped to the oldest mid and the return equals the 1-step
value 1.0101. -/
theorem c5_counterexample :
    (collectMids exSnaps "BTC").length = 2 ∧
    (shortReturns (collectMids exSnaps "BTC")).2.2 = some (10101/10000) := by decide

/-- C6, evaluation at the failing input: on a 4-candle series with
period 14 the code yields ATR 68.5 because `max(0, len - period + i - 1)`
clamps every previous-close index to candle 0 (close 100), while the
claimed true-range recurrence over each bar's immediately preceding
close gives 24.5. -/
theorem c6_atr_short_series_eval :
    computeAtr exCandles 14 = some (137/2) ∧
    atrSpec exCandles 14 = some (49/2) ∧ (137/2 : ℚ) ≠ 49/2 := by decide

/-- C8, counterexample: `exC8` is accepted by the validator although
its first (long) setup's take-profit percentages sum to 50 and the two
no_trade ladders sum to 0 — no sums-to-100 check exists anywhere in
the pipeline. -/
theorem c8_counterexample :
    (validateLLMOutput defaultConfig (some exC8)).1.isSome = true ∧
    ((validateLLMOutput defaultConfig (some exC8)).1.getD exC8).setups.map
      (fun s => (s.take_profits.map (fun t => t.pct)).sum) = [50, 0, 0] := by decide

/-- C10: a previous record whose timestamp string is present but
unparseable is treated as 999 minutes old; with one signal whose ts
string compares greater than the record's, the anchor is not dropped
and a MODERATE digest is produced. -/
theorem c10_unparseable_timestamp_moderate :
    (buildAnchoringContext (fun _ => none) exNow (some exRec10) [exSig10]).map
      (fun a => a.age_minutes) = some 999 ∧
    (buildAnchoringContext (fun _ => none) exNow (some exRec10) [exSig10]).map
      (fun a => a.strength) = some Strength.moderate := by decide

/-- C9: the correction step mutates only numeric risk fields; for
every accepted input the regime, regime note, no-trade reason, entry
trigger conditions, stop rationale, invalidations, red flags and
criterion names of the output equal those of the parsed input. -/
theorem c9_text_fields_never_mutated (cfg : Config) (inp out : LLMOutput)
    (hrun : (validateLLMOutput cfg (some inp)).1 = some out) :
    textPreserved inp out := by
  obtain ⟨_, _, hre, hrn, hnt, hcase⟩ := validate_inversion cfg inp out hrun
  refine ⟨hre, hrn, hnt, ?_⟩
  intro i s₀ sOut h0 h1
  rcases hcase with ⟨_, hset⟩ | ⟨_, hset⟩
  · rw [hset] at h1
    unfold correctedSetups at h1
    simp only [List.getElem?_map, h0, Option.map_some', Option.some.injEq] at h1
    obtain ⟨r, hr⟩ := correctSetup_shape cfg s₀
    rw [← h1, hr]
    exact ⟨rfl, rfl, rfl, rfl, rfl⟩
  · rw [hset] at h1
    unfold correctedSetups at h1
    simp only [List.map_map, List.getElem?_map, h0, Option.map_some',
      Option.some.injEq, Function.comp] at h1
    obtain ⟨r2, hr2⟩ := scaleSetup_shape
      (cfg.max_total_risk_pct / totalRisk cfg inp.setups) ((correctSetup cfg s₀).1)
    obtain ⟨r, hr⟩ := correctSetup_shape cfg s₀
    rw [← h1]
    show textFieldsEq ((scaleSetup _ ((correctSetup cfg s₀).1)).1) s₀
    rw [hr2, hr]
    exact ⟨rfl, rfl, rfl, rfl, rfl⟩

/-- C9 witness: the concrete accepted input `exInp1` keeps all its
text fields. -/
theorem c9_witness :
    (validateLLMOutput defaultConfig (some exInp1)).1 = some exOut1 ∧
    textPreserved exInp1 exOut1 :=
  ⟨by decide, c9_text_fields_never_mutated defaultConfig exInp1 exOut1 (by decide)⟩

/-- C4 (amended): the pipeline returns no output exactly when the
input failed to parse or its schema errors are non-empty; a setup
whose confidence differs by more than 2 from the rounded weighted
criterion sum forces rejection of the whole output; and a setup within
the plus-or-minus-2 tolerance of the raw weighted sum is never the
source of a confidence-mismatch error. -/
theorem c4_confidence_check (cfg : Config) (o : LLMOutput) :
    ((validateLLMOutput cfg (some o)).1 = none ↔ schemaErrors o ≠ []) ∧
    (validateLLMOutput cfg none).1 = none ∧
    (∀ s ∈ o.setups,
      2 < |s.confidence - expectedConfidence (s.confidence_breakdown.map (fun c => c.score))| →
      schemaErrors o ≠ []) ∧
    (∀ s : Setup,
      |(s.confidence : ℚ) - weightedSum (s.confidence_breakdown.map (fun c => c.score))| ≤ 2 →
      setupMismatchErrs s = []) := by
  refine ⟨?_, rfl, ?_, ?_⟩
  · unfold validateLLMOutput
    dsimp only
    by_cases h : schemaErrors o = []
    · rw [if_neg (not_not_intro h)]
      simp [h]
    · rw [if_pos h]
      simp [h]
  · intro s hs hgt hcontra
    unfold schemaErrors at hcontra
    rw [List.append_eq_nil, List.append_eq_nil] at hcontra
    have h1 : setupErrs s = [] :=
      List.flatten_eq_nil_iff.mp hcontra.1.1 _ (List.mem_map_of_mem setupErrs hs)
    unfold setupErrs at h1
    rw [List.append_eq_nil] at h1
    have h2 := h1.2
    unfold setupMismatchErrs at h2
    rw [if_pos h1.1, if_pos hgt] at h2
    exact List.cons_ne_nil _ _ h2
  · intro s htol
    unfold setupMismatchErrs
    by_cases hfe : setupFieldErrs s = []
    · rw [if_pos hfe]
      set w := weightedSum (s.confidence_breakdown.map (fun c => c.score)) with hw
      have hr := abs_rnd_sub w
      have habs : |(s.confidence : ℚ) - (rnd w : ℚ)| < 3 := by
        have h3 := abs_sub_le (s.confidence : ℚ) w (rnd w : ℚ)
        rw [abs_sub_comm w (rnd w : ℚ)] at h3
        linarith
      have hint : |s.confidence -
          expectedConfidence (s.confidence_breakdown.map (fun c => c.score))| < 3 := by
        unfold expectedConfidence
        rw [← hw]
        have hc : ((|s.confidence - rnd w| : ℤ) : ℚ) < 3 := by
          push_cast
          exact habs
        exact_mod_cast hc
      rw [if_neg (by omega)]
    · rw [if_neg hfe]

/-- C4 witness: the far-off output `exC4bad` (confidence 80 against a
weighted sum of 50) is rejected, through the theorem's rejection
branch and its none-iff characterization. -/
theorem c4_witness :
    ((validateLLMOutput defaultConfig (some exC4bad)).1 = none ↔ schemaErrors exC4bad ≠ []) ∧
    schemaErrors exC4bad ≠ [] :=
  ⟨(c4_confidence_check defaultConfig exC4bad).1,
   (c4_confidence_check defaultConfig exC4bad).2.2.1
     (exC4bad.setups.headD dfltSetup) (by decide) (by decide)⟩

/-- C5 (amended): the 1m/5m/15m returns are all absent exactly when
fewer than two nonzero mids were collected; otherwise each equals
`round((current - ref)/ref * 100, 4)` where `ref` is the collected mid
at the lag offset clamped to the oldest available point (a zero
reference cannot occur because zero mids are skipped on collection). -/
theorem c5_short_returns (snaps : List Snapshot) (symbol : String) :
    ((collectMids snaps symbol).length < 2 →
      shortReturns (collectMids snaps symbol) = (none, none, none)) ∧
    (2 ≤ (collectMids snaps symbol).length →
      shortReturns (collectMids snaps symbol) =
        (some (roundTo 4 (retWithClamp (collectMids snaps symbol) 1)),
         some (roundTo 4 (retWithClamp (collectMids snaps symbol) 5)),
         some (roundTo 4 (retWithClamp (collectMids snaps symbol) 15)))) := by
  constructor
  · intro h
    unfold shortReturns
    rw [if_neg (not_le.mpr h)]
  · intro h
    have hret : ∀ k : ℕ, retAt (collectMids snaps symbol) k =
        some (roundTo 4 (retWithClamp (collectMids snaps symbol) k)) := by
      intro k
      unfold retAt retWithClamp
      have hi : min k ((collectMids snaps symbol).length - 1) <
          (collectMids snaps symbol).length := by
        have : (collectMids snaps symbol).length - 1 < (collectMids snaps symbol).length := by
          omega
        exact lt_of_le_of_lt (min_le_right _ _) this
      have hne : (collectMids snaps symbol).getD
          (min k ((collectMids snaps symbol).length - 1)) 0 ≠ 0 := by
        rw [List.getD_eq_getElem?_getD, List.getElem?_eq_getElem hi]
        exact collectMids_ne_zero snaps symbol _ (List.getElem_mem hi)
      rw [if_neg hne]
    unfold shortReturns
    rw [if_pos h, hret 1, hret 5, hret 15]

/-- C5 witness: the two-snapshot instance, where all three returns
equal the clamped-lag formula. -/
theorem c5_witness :
    2 ≤ (collectMids exSnaps "BTC").length ∧
    shortReturns (collectMids exSnaps "BTC") =
      (some (roundTo 4 (retWithClamp (collectMids exSnaps "BTC") 1)),
       some (roundTo 4 (retWithClamp (collectMids exSnaps "BTC") 5)),
       some (roundTo 4 (retWithClamp (collectMids exSnaps "BTC") 15))) :=
  ⟨by decide, (c5_short_returns exSnaps "BTC").2 (by decide)⟩

/-- C8 (amended): no take-profit-ladder check exists — whether the
validator accepts an output is invariant under arbitrary rewriting of
every take-profit percent, so in particular ladders that do not sum to
100 are accepted whenever the rest of the output is schema-valid. -/
theorem c8_no_ladder_sum_check (cfg : Config) (o : LLMOutput) (f : ℤ → ℤ) :
    (validateLLMOutput cfg (some (mapOutputTpPcts f o))).1.isSome =
    (validateLLMOutput cfg (some o)).1.isSome := by
  have hse : schemaErrors (mapOutputTpPcts f o) = schemaErrors o := by
    unfold schemaErrors mapOutputTpPcts
    dsimp only
    simp only [List.map_map, List.length_map]
    have hmap : o.setups.map (setupErrs ∘ mapSetupTpPcts f) = o.setups.map setupErrs :=
      List.map_congr_left (fun s _ => rfl)
    rw [hmap]
  unfold validateLLMOutput
  dsimp only
  rw [hse]
  by_cases h : schemaErrors o = []
  · rw [if_neg (not_not_intro h), if_neg (not_not_intro h)]
    rfl
  · rw [if_pos h, if_pos h]

/-- C7: a previous record older than 90 minutes with zero signals
after it yields no anchor; the same record with parseable raw text and
at least one subsequent signal yields a MODERATE digest. -/
theorem c7_hard_stale_and_moderate (parseTs : String → Option ℚ) (now : ℚ)
    (rec : PrevRecord) (signals : List SignalRec) (ts : String)
    (hts : rec.timestamp = some ts) (hne : ts ≠ "")
    (hage : 90 < ageMinutes parseTs now ts) :
    (signalsSinceCount signals ts = 0 →
      buildAnchoringContext parseTs now (some rec) signals = none) ∧
    (0 < signalsSinceCount signals ts → rec.raw ≠ none →
      (buildAnchoringContext parseTs now (some rec) signals).map (fun a => a.strength) =
        some Strength.moderate) := by
  constructor
  · intro hzero
    unfold buildAnchoringContext
    dsimp only
    rw [hts]
    dsimp only
    rw [if_neg hne, if_pos ⟨hage, hzero⟩]
  · intro hpos hraw
    unfold buildAnchoringContext
    dsimp only
    rw [hts]
    dsimp only
    rw [if_neg hne, if_neg (by
      intro hcon
      exact absurd hcon.2 (Nat.pos_iff_ne_zero.mp hpos))]
    rcases hr : rec.raw with _ | parsed
    · exact absurd hr hraw
    · dsimp only
      rw [if_neg (by
          intro hcon
          exact absurd hcon.2 (Nat.pos_iff_ne_zero.mp hpos)),
        if_pos ⟨by linarith, hpos⟩]
      rfl

/-- C7 witness: a record 100 minutes old yields no anchor with an
empty signal log and a MODERATE digest with one subsequent signal. -/
theorem c7_witness :
    (exRec.timestamp = some "2025-01-01T00:00:00" ∧
     90 < ageMinutes exParse exNow "2025-01-01T00:00:00" ∧
     signalsSinceCount ([] : List SignalRec) "2025-01-01T00:00:00" = 0 ∧
     signalsSinceCount [exSig] "2025-01-01T00:00:00" = 1) ∧
    buildAnchoringContext exParse exNow (some exRec) [] = none ∧
    (buildAnchoringContext exParse exNow (some exRec) [exSig]).map (fun a => a.strength) =
      some Strength.moderate :=
  ⟨by decide,
   (c7_hard_stale_and_moderate exParse exNow exRec [] "2025-01-01T00:00:00"
      rfl (by decide) (by decide)).1 (by decide),
   (c7_hard_stale_and_moderate exParse exNow exRec [exSig] "2025-01-01T00:00:00"
      rfl (by decide) (by decide)).2 (by decide) (by decide)⟩

/-- C1: for every accepted output, a setup that is not no_trade and
has positive, distinct entry trigger and stop price gets its risk
fields overwritten by the first-principles sizing: leverage is
`min (int(notional / margin_budget) + 1) max_leverage` and never
exceeds the configured maximum; under the cap the stored notional is
`max_loss / stop_distance` with `max_loss = equity * risk_pct / 100`
and `stop_distance = |entry - stop| / entry`; over the cap the
notional is shrunk to `margin_budget * max_leverage` and the max loss
recomputed from it (stored values rounded to cents). -/
theorem c1_deterministic_sizing (cfg : Config) (inp out : LLMOutput) (i : ℕ)
    (s₀ sOut : Setup)
    (hrun : (validateLLMOutput cfg (some inp)).1 = some out)
    (h0 : inp.setups[i]? = some s₀) (h1 : out.setups[i]? = some sOut)
    (hd : s₀.direction ≠ "no_trade")
    (hv : 0 < s₀.entry.levels.trigger ∧ 0 < s₀.stop.level ∧
          s₀.entry.levels.trigger ≠ s₀.stop.level) :
    sizingSpec cfg (capRiskPct cfg s₀.risk.risk_pct_equity)
      s₀.entry.levels.trigger s₀.stop.level sOut.risk := by
  obtain ⟨_, _, _, _, _, hcase⟩ := validate_inversion cfg inp out hrun
  have hsz := correctSetup_sized cfg s₀ hd hv
  rcases hcase with ⟨_, hset⟩ | ⟨_, hset⟩
  · rw [hset] at h1
    unfold correctedSetups at h1
    simp only [List.getElem?_map, h0, Option.map_some', Option.some.injEq] at h1
    rw [← h1]
    exact hsz
  · rw [hset] at h1
    unfold correctedSetups at h1
    simp only [List.map_map, List.getElem?_map, h0, Option.map_some',
      Option.some.injEq, Function.comp] at h1
    rw [← h1]
    obtain ⟨hl, hn, hm, hg⟩ := scaleSetup_risk_preserved
      (cfg.max_total_risk_pct / totalRisk cfg inp.setups) ((correctSetup cfg s₀).1)
    exact sizingSpec_of_fields_eq cfg _ _ _ _ _ hl hn hm hg hsz

/-- C1 witness: the specification's leverage-ceiling example under the
default configuration (leverage 6, margin 4450) and with the cap
lowered to 4 (notional shrunk to 20000, max loss 74.91). -/
theorem c1_witness :
    ((validateLLMOutput defaultConfig (some exInp1)).1 = some exOut1 ∧
     exInp1.setups[0]? = some exSetupA ∧
     exOut1.setups[0]? = some (exOut1.setups.headD dfltSetup) ∧
     exSetupA.direction ≠ "no_trade" ∧
     (0 < exSetupA.entry.levels.trigger ∧ 0 < exSetupA.stop.level ∧
      exSetupA.entry.levels.trigger ≠ exSetupA.stop.level) ∧
     (validateLLMOutput config4 (some exInp1)).1 = some exOut1c4 ∧
     exOut1c4.setups[0]? = some (exOut1c4.setups.headD dfltSetup)) ∧
    sizingSpec defaultConfig (capRiskPct defaultConfig exSetupA.risk.risk_pct_equity)
      exSetupA.entry.levels.trigger exSetupA.stop.level
      (exOut1.setups.headD dfltSetup).risk ∧
    sizingSpec config4 (capRiskPct config4 exSetupA.risk.risk_pct_equity)
      exSetupA.entry.levels.trigger exSetupA.stop.level
      (exOut1c4.setups.headD dfltSetup).risk ∧
    ((exOut1.setups.headD dfltSetup).risk.recommended_leverage = 6 ∧
     (exOut1.setups.headD dfltSetup).risk.position_notional_usd = 26700 ∧
     (exOut1.setups.headD dfltSetup).risk.margin_used_usd = 4450 ∧
     (exOut1c4.setups.headD dfltSetup).risk.recommended_leverage = 4 ∧
     (exOut1c4.setups.headD dfltSetup).risk.position_notional_usd = 20000 ∧
     (exOut1c4.setups.headD dfltSetup).risk.max_loss_usd = 7491/100) :=
  ⟨by decide,
   c1_deterministic_sizing defaultConfig exInp1 exOut1 0 exSetupA
     (exOut1.setups.headD dfltSetup) (by decide) (by decide) (by decide)
     (by decide) (by decide),
   c1_deterministic_sizing config4 exInp1 exOut1c4 0 exSetupA
     (exOut1c4.setups.headD dfltSetup) (by decide) (by decide) (by decide)
     (by decide) (by decide),
   by decide⟩

/-- C2: whenever the post-cap total risk exceeds the ceiling, every
non-no_trade setup of the accepted output carries exactly the risk
percent `round(corrected_pct * ceiling / total, 2)` while its sized
notional, leverage, max loss and margin are left as computed, no_trade
setups are returned exactly as corrected, and the issue list carries
exactly one scaling note per non-no_trade setup. -/
theorem c2_total_risk_scaling (cfg : Config) (inp out : LLMOutput)
    (hrun : (validateLLMOutput cfg (some inp)).1 = some out)
    (htot : cfg.max_total_risk_pct < totalRisk cfg inp.setups) :
    scaledFieldsSpec cfg inp out ∧
    (correctionsOf (validateLLMOutput cfg (some inp)).2).countP isScaledNote =
      inp.setups.countP (fun s => decide (s.direction ≠ "no_trade")) := by
  obtain ⟨hse, _, _, _, _, hcase⟩ := validate_inversion cfg inp out hrun
  constructor
  · intro i s₀ sOut h0 h1
    rcases hcase with ⟨hle, _⟩ | ⟨_, hset⟩
    · exact absurd htot (not_lt.mpr hle)
    · rw [hset] at h1
      unfold correctedSetups at h1
      simp only [List.map_map, List.getElem?_map, h0, Option.map_some',
        Option.some.injEq, Function.comp] at h1
      have hdir := correctSetup_direction cfg s₀
      constructor
      · intro hnt
        rw [← h1]
        unfold scaleSetup
        rw [if_neg (by rw [hdir, hnt]; exact not_not_intro rfl)]
      · intro hnt
        rw [← h1]
        unfold scaleSetup
        rw [if_pos (by rw [hdir]; exact hnt)]
        dsimp only
        exact ⟨rfl, rfl, rfl, rfl, rfl⟩
  · rw [correctionsOf_validate cfg inp hse, List.countP_append,
      correctionNotes_not_scaled]
    unfold applyTotalRiskScaling
    rw [if_pos htot]
    dsimp only
    rw [scaleNotes_scaled_count, countP_direction_corrected]
    omega

/-- C2 witness: three setups at 1 percent against a 2 percent ceiling
are each scaled to 0.67 percent (two-thirds within rounding), the new
sum is 2.01, the notionals are untouched and three scaling notes are
recorded. -/
theorem c2_witness :
    ((validateLLMOutput defaultConfig (some exInp3)).1 = some exOut3 ∧
     defaultConfig.max_total_risk_pct < totalRisk defaultConfig exInp3.setups) ∧
    scaledFieldsSpec defaultConfig exInp3 exOut3 ∧
    (correctionsOf (validateLLMOutput defaultConfig (some exInp3)).2).countP isScaledNote =
      exInp3.setups.countP (fun s => decide (s.direction ≠ "no_trade")) ∧
    exOut3.setups.map (fun s => s.risk.risk_pct_equity) = [67/100, 67/100, 67/100] ∧
    (exOut3.setups.map (fun s => s.risk.risk_pct_equity)).sum = 201/100 ∧
    exOut3.setups.map (fun s => s.risk.position_notional_usd) = [10000, 10000, 10000] :=
  ⟨by decide,
   (c2_total_risk_scaling defaultConfig exInp3 exOut3 (by decide) (by decide)).1,
   (c2_total_risk_scaling defaultConfig exInp3 exOut3 (by decide) (by decide)).2,
   by decide, by decide, by decide⟩

/-- C3 (amended): the corrected output is not a fixed point in
general (see the counterexample), but running the correction step a
second time produces zero correction notes whenever the first run
needed no total-risk scaling and, for every sized setup, the raw
leverage stayed within the cap and the recomputed notional was at
least one dollar. -/
theorem c3_fixed_point_amended (cfg : Config) (inp out1 : LLMOutput)
    (hrun : (validateLLMOutput cfg (some inp)).1 = some out1)
    (htot : totalRisk cfg inp.setups ≤ cfg.max_total_risk_pct)
    (hsz : ∀ s ∈ inp.setups, s.direction ≠ "no_trade" →
      (0 < s.entry.levels.trigger ∧ 0 < s.stop.level ∧
        s.entry.levels.trigger ≠ s.stop.level) →
      rawLeverage cfg (capRiskPct cfg s.risk.risk_pct_equity)
          s.entry.levels.trigger s.stop.level ≤ (cfg.max_leverage : ℚ) ∧
      1 ≤ sizedNotional cfg (capRiskPct cfg s.risk.risk_pct_equity)
          s.entry.levels.trigger s.stop.level) :
    correctionsOf (validateLLMOutput cfg (some out1)).2 = [] := by
  obtain ⟨hse, _, hre, _, _, hcase⟩ := validate_inversion cfg inp out1 hrun
  rcases hcase with ⟨_, hset⟩ | ⟨hgt, _⟩
  · have hse2 : schemaErrors out1 = [] := by
      rw [schemaErrors_congr out1 { inp with setups := correctedSetups cfg inp.setups }
        (by rw [hset]) (by rw [hre]), schemaErrors_correctedSetups]
      exact hse
    rw [correctionsOf_validate cfg out1 hse2, hset]
    have h1 : correctionNotes cfg (correctedSetups cfg inp.setups) = [] := by
      apply correctionNotes_nil_of
      intro s' hs'
      unfold correctedSetups at hs'
      rw [List.mem_map] at hs'
      obtain ⟨s, hs, hss⟩ := hs'
      rw [← hss]
      exact correctSetup_twice_no_notes cfg s (hsz s hs)
    rw [h1]
    have h2 : totalRisk cfg (correctedSetups cfg inp.setups) ≤ cfg.max_total_risk_pct := by
      rw [totalRisk_corrected]
      exact htot
    unfold applyTotalRiskScaling
    rw [if_neg (not_lt.mpr h2)]
    rfl
  · exact absurd hgt (not_lt.mpr htot)

/-- C3 witness: the accepted input `exInp1` (no scaling, raw leverage
5.34 under the cap 6, notional 26700) is a fixed point: the second run
emits no correction notes. -/
theorem c3_witness :
    ((validateLLMOutput defaultConfig (some exInp1)).1 = some exOut1 ∧
     totalRisk defaultConfig exInp1.setups ≤ defaultConfig.max_total_risk_pct ∧
     (∀ s ∈ exInp1.setups, s.direction ≠ "no_trade" →
       (0 < s.entry.levels.trigger ∧ 0 < s.stop.level ∧
         s.entry.levels.trigger ≠ s.stop.level) →
       rawLeverage defaultConfig (capRiskPct defaultConfig s.risk.risk_pct_equity)
           s.entry.levels.trigger s.stop.level ≤ (defaultConfig.max_leverage : ℚ) ∧
       1 ≤ sizedNotional defaultConfig (capRiskPct defaultConfig s.risk.risk_pct_equity)
           s.entry.levels.trigger s.stop.level)) ∧
    correctionsOf (validateLLMOutput defaultConfig (some exOut1)).2 = [] :=
  ⟨⟨by decide, by decide, by decide⟩,
   c3_fixed_point_amended defaultConfig exInp1 exOut1 (by decide) (by decide) (by decide)⟩

end DecideSupport

end TradingSuggester
